import Mathlib

/-!
Verification of the GPT4Vision client module (dsp/modules/gpt4vision.py).

This file gives a shallow embedding of the module: Python dicts become
association lists in insertion order, numbers become exact rationals,
fallible code returns Except, and the stateful pieces (per-instance call
history, the two cache tiers) are passed as explicit state.  The retry
decorator (the external backoff library) and the two cache decorators
(CacheMemory and NotebookCacheMemory from dsp.modules.cache_utils, which
is not part of the sources at hand, plus functools.lru_cache) are modelled
from the specification; everything else is translated directly from
gpt4vision.py.
-/

/-- Primitive option values in the kwargs dictionaries: strings and numbers.
Python ints and floats are modelled exactly as rationals. -/
inductive Prim where
  | s : String → Prim
  | q : ℚ → Prim
deriving DecidableEq

/-- A Python dict with string keys, modelled as an association list kept in
insertion order (Python dicts preserve insertion order).  A dict built by
Python never has duplicate keys. -/
abbrev KV := List (String × Prim)

/-- Python dict assignment d[k] = v: if k is already bound, the binding is
updated in place (position preserved); otherwise the new binding is appended
at the end. -/
def dictInsert (d : List (String × α)) (k : String) (v : α) : List (String × α) :=
  match d with
  | [] => [(k, v)]
  | (k1, v1) :: rest => if k1 = k then (k, v) :: rest else (k1, v1) :: dictInsert rest k v

/-- Python dict lookup d[k] / d.get(k). -/
def dictLookup (k : String) : List (String × α) → Option α
  | [] => none
  | (k1, v) :: rest => if k1 = k then some v else dictLookup k rest

/-- Python double-splat merge as used on line 101: kwargs = dict un-packing of
self.kwargs followed by the call kwargs, i.e. every binding of d2 assigned
into d1 in order.  Later bindings win; bindings whose key is already present
keep the position of the earlier binding. -/
def dictMerge (d1 d2 : List (String × α)) : List (String × α) :=
  d2.foldl (fun acc p => dictInsert acc p.1 p.2) d1

/-- Message content: either the plain prompt string, or the two-part list
(text part plus image_url part) built in basic_request when an image is
supplied.  The image argument is modelled as its resolved URL, i.e. the
result of the external Image.init_from resolver. -/
inductive Content where
  | text : String → Content
  | parts : String → String → Content
deriving DecidableEq

/-- One chat message: a role and a content payload. -/
structure Msg where
  role : String
  content : Content
deriving DecidableEq

/-- Deterministic rendering of a primitive value, modelling the JSON
rendering of a scalar. -/
def serializePrim : Prim → String
  | .s v => "str:" ++ v
  | .q v => "num:" ++ toString v.num ++ "/" ++ toString v.den

/-- Deterministic rendering of a dict in insertion order, modelling
json.dumps on a dict: json.dumps is called without sort_keys on line 124,
so the rendering follows dict insertion order exactly. -/
def serializeKV (d : KV) : String :=
  String.intercalate "," (d.map (fun p => p.1 ++ "=" ++ serializePrim p.2))

/-- Rendering of a message content payload. -/
def serializeContent : Content → String
  | .text t => "text:" ++ t
  | .parts t u => "textpart:" ++ t ++ ";imagepart:" ++ u

/-- Rendering of one message. -/
def serializeMsg (m : Msg) : String :=
  "role=" ++ m.role ++ ";content=" ++ serializeContent m.content

/-- Model of json.dumps(kwargs) on line 124, after the assignment
kwargs[messages] = messages on line 122: the scalar options are rendered in
insertion order and the messages entry, a fresh key appended by that
assignment, is rendered last. -/
def stringifyRequest (d : KV) (messages : List Msg) : String :=
  serializeKV d ++ ";messages=" ++ String.intercalate "|" (messages.map serializeMsg)

/-- The Python exceptions that can surface from the modelled code paths.
rateLimitError models openai RateLimitError, the only member of the ERRORS
tuple on line 26; transportError stands for any other remote failure. -/
inductive PyErr where
  | assertionError
  | keyError : String → PyErr
  | typeError
  | zeroDivisionError
  | rateLimitError
  | transportError
deriving DecidableEq

/-- The message field of a chat-style response choice. -/
structure MsgOut where
  content : String
deriving DecidableEq

/-- The logprobs field of a response choice: parallel lists of tokens and
token log-probabilities. -/
structure LogprobData where
  tokens : List String
  token_logprobs : List ℚ
deriving DecidableEq

/-- One response choice, as the dict produced by model_dump: a finish_reason,
an optional message field (chat shape), an optional text field (legacy
completion shape) and optional logprobs.  A missing field is none; in Python,
subscripting a missing key raises KeyError and subscripting None raises
TypeError. -/
structure Choice where
  finish_reason : String
  message : Option MsgOut
  text : Option String
  logprobs : Option LogprobData
deriving DecidableEq

/-- A raw structured response: the choices list.  The usage summary only
feeds the logging side channel and is not modelled. -/
structure Resp where
  choices : List Choice
deriving DecidableEq

/-- One entry of self.history, as built on lines 131-138.  The kwargs field
of the Python dict holds the rebound kwargs variable, which at that point is
the wrapper dict with the single key stringify_request; it is modelled by the
serialized request string that wrapper carries. -/
structure HistRecord where
  prompt : String
  image : Option String
  response : Resp
  kwargs : String
  raw_kwargs : KV
deriving DecidableEq

/-- The mutable state of one GPT4Vision instance: its configuration and its
append-only call history. -/
structure InstState where
  model_type : String
  system_prompt : Option String
  kwargs : KV
  history : List HistRecord
deriving DecidableEq

/-- The default sampling options set in __init__ (lines 73-81), in their
insertion order. -/
def defaultKwargs : KV :=
  [("temperature", .q 0), ("max_tokens", .q 150), ("top_p", .q 1),
   ("frequency_penalty", .q 0), ("presence_penalty", .q 0), ("n", .q 1)]

/-- Model of GPT4Vision.__init__: the default options merged with the
constructor kwargs, then the model key assigned (line 83); model_type
defaults to vision (lines 64-65); history starts empty (line 84). -/
def mkInstState (model : String) (model_type : Option String)
    (system_prompt : Option String) (ctorKwargs : KV) : InstState :=
  { model_type := model_type.getD "vision"
    system_prompt := system_prompt
    kwargs := dictInsert (dictMerge defaultKwargs ctorKwargs) "model" (.s model)
    history := [] }

/-- The two cache tiers, both keyed by the serialized request: the
in-process memo (functools.lru_cache with unbounded size, line 236, taken
with caching turned on) and the persistent store (CacheMemory, line 229). -/
structure CacheState where
  memo : List (String × Resp)
  store : List (String × Resp)
deriving DecidableEq

/-- Modelled from the spec: the persistent cache tier (CacheMemory from
dsp.modules.cache_utils, not among the sources here).  Section 4.1: on hit
return the stored value; on miss invoke the real network call, store the raw
result, and return it.  An error from the network call propagates and stores
nothing.  The last component counts network invocations. -/
def persistentTier (net : String → Except PyErr Resp) (store : List (String × Resp))
    (key : String) : Except PyErr Resp × List (String × Resp) × Nat :=
  match dictLookup key store with
  | some r => (.ok r, store, 0)
  | none =>
    match net key with
    | .ok r => (.ok r, dictInsert store key r, 1)
    | .error e => (.error e, store, 1)

/-- Modelled from the spec: chat_request (line 242), the in-process memo
layered over the persistent tier (cached_gpt4vision_chat_request_wrapped,
lines 236-239).  Section 4.1: check the memo first and return immediately on
hit; on memo miss delegate to the persistent tier and populate the memo from
its answer.  The last component counts network invocations. -/
def chat_request (net : String → Except PyErr Resp) (cs : CacheState)
    (key : String) : Except PyErr Resp × CacheState × Nat :=
  match dictLookup key cs.memo with
  | some r => (.ok r, cs, 0)
  | none =>
    match persistentTier net cs.store key with
    | (.ok r, store1, n) => (.ok r, ⟨dictInsert cs.memo key r, store1⟩, n)
    | (.error e, store1, n) => (.error e, ⟨cs.memo, store1⟩, n)

/-- The messages list built in basic_request (lines 103-121): one user
message whose content is the prompt alone, or the text plus image_url parts
when an image is supplied; a configured system prompt is inserted in front. -/
def buildMessages (system_prompt : Option String) (prompt : String)
    (image : Option String) : List Msg :=
  let content := match image with
    | some url => Content.parts prompt url
    | none => Content.text prompt
  let messages := [⟨"user", content⟩]
  match system_prompt with
  | some sp => ⟨"system", Content.text sp⟩ :: messages
  | none => messages

/-- The serialized request computed in basic_request: the instance defaults
merged with the call kwargs (line 101), the messages appended (line 122),
and the whole dict dumped to a string (line 124).  This string is the cache
key. -/
def requestKey (inst : InstState) (prompt : String) (image : Option String)
    (callKwargs : KV) : String :=
  stringifyRequest (dictMerge inst.kwargs callKwargs)
    (buildMessages inst.system_prompt prompt image)

/-- Model of basic_request (lines 96-140): merge kwargs, build the messages,
serialize, call chat_request, and on success append exactly one history
record before returning; an exception from chat_request propagates before
the append, leaving the instance untouched. -/
def basicRequest (net : String → Except PyErr Resp) (inst : InstState)
    (cs : CacheState) (prompt : String) (image : Option String)
    (callKwargs : KV) : Except PyErr Resp × InstState × CacheState :=
  match chat_request net cs (requestKey inst prompt image callKwargs) with
  | (.ok resp, cs1, _) =>
    (.ok resp,
     { inst with history := inst.history ++
         [⟨prompt, image, resp, requestKey inst prompt image callKwargs, callKwargs⟩] },
     cs1)
  | (.error e, cs1, _) => (.error e, inst, cs1)

/-- Modelled from the spec: the backoff decorator on request (lines 142-147),
backoff.on_exception(backoff.expo, ERRORS, max_time=10).  Section 4.2:
retries only on the rate-limit classification, exponential delays (1, 2, 4,
...), unbounded attempt count, total sleep capped at the 10-unit budget with
the delay truncated to the remaining budget; once the budget is exhausted the
last error is raised.  fuel is the remaining budget; the result carries the
number of attempts made and the total time slept. -/
def retryGo (f : Nat → Except PyErr α) (attempt fuel : Nat) :
    Except PyErr α × Nat × Nat :=
  match f attempt with
  | .ok r => (.ok r, attempt + 1, 0)
  | .error e =>
    if h : e = PyErr.rateLimitError ∧ 0 < fuel then
      let w := min (2 ^ attempt) fuel
      let rest := retryGo f (attempt + 1) (fuel - w)
      (rest.1, rest.2.1, w + rest.2.2)
    else (.error e, attempt + 1, 0)
termination_by fuel
decreasing_by
  have h2 : 0 < 2 ^ attempt := Nat.pos_pow_of_pos attempt (by decide)
  have h3 : 1 ≤ min (2 ^ attempt) fuel := le_min h2 h.2
  omega

/-- One retry attempt of request: run basic_request against the attempt-t
network oracle; an exception discards any would-be state (no state was
mutated on the failing paths). -/
def retryAttempt (net : Nat → String → Except PyErr Resp) (inst : InstState)
    (cs : CacheState) (prompt : String) (image : Option String)
    (callKwargs : KV) (t : Nat) : Except PyErr (Resp × InstState × CacheState) :=
  match basicRequest (net t) inst cs prompt image callKwargs with
  | (.ok r, inst1, cs1) => .ok (r, inst1, cs1)
  | (.error e, _, _) => .error e

/-- The deletion of a model_type entry from the call kwargs performed by
request (lines 150-151). -/
def delModelType (kw : KV) : KV :=
  kw.filter (fun p => p.1 != "model_type")

/-- Model of request (lines 142-153): drop a model_type entry from the call
kwargs (lines 150-151), then run basic_request under the retry policy with
the 10-unit budget.  The network oracle is indexed by attempt number so a
transient failure can be expressed. -/
def request (net : Nat → String → Except PyErr Resp) (inst : InstState)
    (cs : CacheState) (prompt : String) (image : Option String)
    (callKwargs : KV) : Except PyErr (Resp × InstState × CacheState) × Nat × Nat :=
  retryGo (retryAttempt net inst cs prompt image (delModelType callKwargs)) 0 10

/-- Model of _get_choice_text (lines 155-158): chat model_type reads the
message content, any other model_type reads the direct text field.  A
missing field is a Python KeyError. -/
def getChoiceText (model_type : String) (c : Choice) : Except PyErr String :=
  if model_type = "chat" then
    match c.message with
    | some m => .ok m.content
    | none => .error (.keyError "message")
  else
    match c.text with
    | some t => .ok t
    | none => .error (.keyError "text")

/-- The choice filtering of lines 190-193: keep the choices whose
finish_reason is not length when only_completed is set and at least one such
choice exists, otherwise keep every choice. -/
def keptChoices (only_completed : Bool) (choices : List Choice) : List Choice :=
  let completed := choices.filter (fun c => c.finish_reason != "length")
  if only_completed && !completed.isEmpty then completed else choices

/-- The endoftext truncation of lines 205-207: when the endoftext token
occurs, both lists are cut after its first occurrence, inclusive. -/
def truncAtEot (tokens : List String) (lps : List ℚ) : List String × List ℚ :=
  if "<|endoftext|>" ∈ tokens then
    let index := tokens.indexOf "<|endoftext|>" + 1
    (tokens.take index, lps.take index)
  else (tokens, lps)

/-- The score of one choice (lines 199-209): the arithmetic mean of the
truncated token log-probabilities.  Subscripting an absent logprobs field
(None) raises TypeError in Python; sum(logprobs)/len(logprobs) on an empty
list raises ZeroDivisionError. -/
def choiceScore (c : Choice) : Except PyErr ℚ :=
  match c.logprobs with
  | none => .error .typeError
  | some lp =>
    let tl := truncAtEot lp.tokens lp.token_logprobs
    if tl.2.length = 0 then .error .zeroDivisionError
    else .ok (tl.2.sum / (tl.2.length : ℚ))

/-- The scoring loop of lines 197-210: for each kept choice, in order, the
score then the extracted text; the first exception aborts the loop. -/
def scoreChoices (mt : String) : List Choice → Except PyErr (List (ℚ × String))
  | [] => .ok []
  | c :: rest =>
    match choiceScore c with
    | .error e => .error e
    | .ok sc =>
      match getChoiceText mt c with
      | .error e => .error e
      | .ok t =>
        match scoreChoices mt rest with
        | .error e => .error e
        | .ok r => .ok ((sc, t) :: r)

/-- The order by which Python sorted(scored, reverse=True) arranges the
(score, text) pairs: descending lexicographic tuple order.  pyGe p q says p
may come before q. -/
def pyGe (p q : ℚ × String) : Prop :=
  q.1 < p.1 ∨ (q.1 = p.1 ∧ q.2 ≤ p.2)

instance : DecidableRel pyGe := fun p q => by
  unfold pyGe; infer_instance

instance : IsTotal (ℚ × String) pyGe := by
  constructor
  intro a b
  rcases lt_trichotomy a.1 b.1 with h | h | h
  · exact Or.inr (Or.inl h)
  · rcases le_total a.2 b.2 with h2 | h2
    · exact Or.inr (Or.inr ⟨h, h2⟩)
    · exact Or.inl (Or.inr ⟨h.symm, h2⟩)
  · exact Or.inl (Or.inl h)

instance : IsTrans (ℚ × String) pyGe := by
  constructor
  intro a b c hab hbc
  rcases hab with h1 | ⟨h1, h1s⟩
  · rcases hbc with h2 | ⟨h2, _⟩
    · exact Or.inl (h2.trans h1)
    · exact Or.inl (h2 ▸ h1)
  · rcases hbc with h2 | ⟨h2, h2s⟩
    · exact Or.inl (h1 ▸ h2)
    · exact Or.inr ⟨h2.trans h1, h2s.trans h1s⟩

/-- The requested choice count read on line 196: kwargs.get(n, 1).  The
option is numeric in every intended call. -/
def getN (kwargs : KV) : ℚ :=
  match dictLookup "n" kwargs with
  | some (.q v) => v
  | some (.s _) => 1
  | none => 1

/-- Model of the response normalization in __call__ (lines 188-215): extract
the choices, filter by finish_reason, extract each kept text (line 195), and
when return_sorted is set with n above 1, score each kept choice and emit the
texts in descending score order.  Python sorted is a stable sort, and with
reverse=True and the total tuple order its output is the insertion sort by
pyGe. -/
def normalizeResp (mt : String) (resp : Resp) (kwargs : KV)
    (only_completed return_sorted : Bool) : Except PyErr (List String) :=
  match (keptChoices only_completed resp.choices).mapM (getChoiceText mt) with
  | .error e => .error e
  | .ok completions =>
    if return_sorted && decide (1 < getN kwargs) then
      match scoreChoices mt (keptChoices only_completed resp.choices) with
      | .error e => .error e
      | .ok scored => .ok ((List.insertionSort pyGe scored).map Prod.snd)
    else .ok completions

/-- Model of __call__ (lines 160-215): the two interface guards (lines
180-181) raise AssertionError before anything else happens; then request runs
and its raw response is normalized.  Errors propagate with whatever state the
completed prefix of the call produced: an assertion or request error leaves
the original state, a normalization error keeps the history record appended
by the successful basic_request. -/
def callModel (net : Nat → String → Except PyErr Resp) (inst : InstState)
    (cs : CacheState) (prompt : String) (image : Option String)
    (only_completed return_sorted : Bool) (kwargs : KV) :
    Except PyErr (List String) × InstState × CacheState :=
  if !only_completed then (.error .assertionError, inst, cs)
  else if return_sorted then (.error .assertionError, inst, cs)
  else
    match (request net inst cs prompt image kwargs).1 with
    | .error e => (.error e, inst, cs)
    | .ok (resp, inst1, cs1) =>
      match normalizeResp inst.model_type resp kwargs only_completed return_sorted with
      | .error e => (.error e, inst1, cs1)
      | .ok ts => (.ok ts, inst1, cs1)

/-! Concrete instances, responses and kwargs used by the claim theorems
and witnesses below. -/

def c2Resp : Resp := ⟨[⟨"stop", some ⟨"hi"⟩, none, none⟩]⟩

def c10Inst : InstState := mkInstState "gpt-4-vision-preview" none none []

def c9Choice : Choice := ⟨"stop", some ⟨"hi"⟩, none, none⟩

def c3Inst : InstState := mkInstState "m3" none none []

def c4Inst : InstState := mkInstState "m4" none none []

def c4Resp : Resp := ⟨[⟨"stop", some ⟨"ok"⟩, none, none⟩]⟩

/-- The text a chat-shaped choice carries under its message field. -/
def chatText (c : Choice) : String :=
  match c.message with
  | some m => m.content
  | none => ""

def c5Inst : InstState := mkInstState "m5" (some "chat") none []

def c5RespA : Resp :=
  ⟨[⟨"length", some ⟨"A"⟩, none, none⟩,
    ⟨"stop", some ⟨"B"⟩, none, none⟩,
    ⟨"stop", some ⟨"C"⟩, none, none⟩]⟩

def c5RespB : Resp :=
  ⟨[⟨"length", some ⟨"A"⟩, none, none⟩,
    ⟨"length", some ⟨"B"⟩, none, none⟩]⟩

def c6Inst : InstState := mkInstState "m6" (some "chat") none []

def c6Resp : Resp :=
  ⟨[⟨"stop", some ⟨"a"⟩, none, some ⟨["x", "y"], [-1, -1]⟩⟩,
    ⟨"stop", some ⟨"b"⟩, none, some ⟨["x", "y", "z"], [-1/10, -1/10, -1/10]⟩⟩]⟩

def c6Kw : KV := [("n", .q 2)]

def c6Scored : List (ℚ × String) := [(-1, "a"), (-1/10, "b")]

def c7Inst : InstState := mkInstState "m7" (some "chat") none []

def c7RespNone : Resp := ⟨[⟨"stop", some ⟨"a"⟩, none, none⟩]⟩

def c7RespEmpty : Resp := ⟨[⟨"stop", some ⟨"a"⟩, none, some ⟨[], []⟩⟩]⟩

def c7Kw : KV := [("n", .q 2)]

def c1Inst : InstState := mkInstState "m1" none none []

def c1wInst : InstState := mkInstState "mw" none none []

/-! Helper lemmas about the dict operations. -/

theorem dictLookup_dictInsert_self (d : List (String × α)) (k : String) (v : α) :
    dictLookup k (dictInsert d k v) = some v := by
  induction d with
  | nil => simp [dictInsert, dictLookup]
  | cons p rest ih =>
    obtain ⟨k1, v1⟩ := p
    by_cases h : k1 = k
    · simp [dictInsert, dictLookup, h]
    · simp [dictInsert, dictLookup, h, ih]

/-- Claim C2: with both tiers fresh for the serialized request, the cached
request function invokes the network exactly once, stores the raw response in
the memo and in the persistent store, and returns it; an identical second
call returns the stored response with zero network invocations, whatever the
network would now answer. -/
theorem claim_C2_cache (net : String → Except PyErr Resp) (cs : CacheState)
    (key : String) (resp : Resp)
    (h1 : dictLookup key cs.memo = none) (h2 : dictLookup key cs.store = none)
    (h3 : net key = .ok resp) :
    chat_request net cs key =
      (.ok resp, ⟨dictInsert cs.memo key resp, dictInsert cs.store key resp⟩, 1) ∧
    ∀ net2, chat_request net2
        ⟨dictInsert cs.memo key resp, dictInsert cs.store key resp⟩ key =
      (.ok resp, ⟨dictInsert cs.memo key resp, dictInsert cs.store key resp⟩, 0) := by
  constructor
  · simp [chat_request, persistentTier, h1, h2, h3]
  · intro net2
    simp [chat_request, dictLookup_dictInsert_self]

/-- Witness for claim C2 at a concrete fresh key; the second call runs
against a network that would fail, showing it is never consulted. -/
theorem claim_C2_cache_witness :
    chat_request (fun _ => .ok c2Resp) ⟨[], []⟩ "k" =
      (.ok c2Resp, ⟨[("k", c2Resp)], [("k", c2Resp)]⟩, 1) ∧
    chat_request (fun _ => .error .transportError)
        ⟨[("k", c2Resp)], [("k", c2Resp)]⟩ "k" =
      (.ok c2Resp, ⟨[("k", c2Resp)], [("k", c2Resp)]⟩, 0) :=
  ⟨(claim_C2_cache (fun _ => .ok c2Resp) ⟨[], []⟩ "k" c2Resp rfl rfl rfl).1,
   (claim_C2_cache (fun _ => .ok c2Resp) ⟨[], []⟩ "k" c2Resp rfl rfl rfl).2 _⟩

/-- Claim C10: a call with only_completed false or return_sorted true fails
the interface guard: it returns AssertionError with the instance state and
both cache tiers untouched, for every network oracle, so no request is
formatted, no cache tier consulted and no network call made. -/
theorem claim_C10_guard (net : Nat → String → Except PyErr Resp)
    (inst : InstState) (cs : CacheState) (prompt : String)
    (image : Option String) (kwargs : KV) (oc rs : Bool)
    (h : oc = false ∨ rs = true) :
    callModel net inst cs prompt image oc rs kwargs =
      (.error .assertionError, inst, cs) := by
  rcases h with h | h
  · subst h; rfl
  · subst h
    cases oc
    · rfl
    · rfl

/-- Witness for claim C10: a concrete call with return_sorted true raises the
assertion and changes nothing. -/
theorem claim_C10_guard_witness :
    (true = false ∨ true = true) ∧
    callModel (fun _ _ => .ok c2Resp) c10Inst ⟨[], []⟩ "p" none true true [] =
      (.error .assertionError, c10Inst, ⟨[], []⟩) :=
  ⟨Or.inr rfl,
   claim_C10_guard (fun _ _ => .ok c2Resp) c10Inst ⟨[], []⟩ "p" none [] true true
     (Or.inr rfl)⟩

/-- Claim C9: the extractor selects the path by configured model type, but
under the default configuration (model_type vision) it selects the direct
text field, which a chat-shaped choice (the only shape the call path
produces) does not have, so extraction raises KeyError; the message-content
path would have succeeded. -/
theorem claim_C9_extraction :
    (mkInstState "gpt-4-vision-preview" none none []).model_type = "vision" ∧
    getChoiceText (mkInstState "gpt-4-vision-preview" none none []).model_type
        c9Choice = .error (.keyError "text") ∧
    getChoiceText "chat" c9Choice = .ok "hi" :=
  ⟨rfl, rfl, rfl⟩

/-! Helper lemmas about the retry loop. -/

theorem retryGo_eq (f : Nat → Except PyErr α) (attempt fuel : Nat) :
    retryGo f attempt fuel =
      match f attempt with
      | .ok r => (.ok r, attempt + 1, 0)
      | .error e =>
        if _ : e = PyErr.rateLimitError ∧ 0 < fuel then
          let w := min (2 ^ attempt) fuel
          let rest := retryGo f (attempt + 1) (fuel - w)
          (rest.1, rest.2.1, w + rest.2.2)
        else (.error e, attempt + 1, 0) := by
  rw [retryGo]

theorem retryGo_ok_step (f : Nat → Except PyErr α) (attempt fuel : Nat) (r : α)
    (h : f attempt = .ok r) : retryGo f attempt fuel = (.ok r, attempt + 1, 0) := by
  rw [retryGo_eq, h]

theorem retryGo_stop_step (f : Nat → Except PyErr α) (attempt fuel : Nat) (e : PyErr)
    (h : f attempt = .error e) (hc : ¬(e = PyErr.rateLimitError ∧ 0 < fuel)) :
    retryGo f attempt fuel = (.error e, attempt + 1, 0) := by
  rw [retryGo_eq, h]
  dsimp only
  rw [dif_neg hc]

theorem retryGo_retry_step (f : Nat → Except PyErr α) (attempt fuel : Nat)
    (h : f attempt = .error PyErr.rateLimitError) (hfuel : 0 < fuel) :
    retryGo f attempt fuel =
      ((retryGo f (attempt + 1) (fuel - min (2 ^ attempt) fuel)).1,
       (retryGo f (attempt + 1) (fuel - min (2 ^ attempt) fuel)).2.1,
       min (2 ^ attempt) fuel +
         (retryGo f (attempt + 1) (fuel - min (2 ^ attempt) fuel)).2.2) := by
  rw [retryGo_eq, h]
  dsimp only
  rw [dif_pos (And.intro (Eq.refl PyErr.rateLimitError) hfuel)]

/-- The total time slept by the retry loop never exceeds the budget. -/
theorem retryGo_waited_le (f : Nat → Except PyErr α) :
    ∀ fuel attempt, (retryGo f attempt fuel).2.2 ≤ fuel := by
  intro fuel
  induction fuel using Nat.strong_induction_on with
  | _ fuel ih =>
    intro attempt
    cases hf : f attempt with
    | ok r =>
      rw [retryGo_ok_step f attempt fuel r hf]
      exact Nat.zero_le _
    | error e =>
      by_cases hc : e = PyErr.rateLimitError ∧ 0 < fuel
      · obtain ⟨he, hfuel⟩ := hc
        subst he
        rw [retryGo_retry_step f attempt fuel hf hfuel]
        dsimp only
        have h2 : 0 < 2 ^ attempt := Nat.pos_pow_of_pos attempt (by decide)
        have h3 : 1 ≤ min (2 ^ attempt) fuel := le_min h2 hfuel
        have h4 : min (2 ^ attempt) fuel ≤ fuel := min_le_right _ _
        have h5 := ih (fuel - min (2 ^ attempt) fuel) (by omega) (attempt + 1)
        omega
      · rw [retryGo_stop_step f attempt fuel e hf hc]
        exact Nat.zero_le _

/-- The retry loop makes at least one attempt. -/
theorem retryGo_attempts_ge (f : Nat → Except PyErr α) :
    ∀ fuel attempt, attempt + 1 ≤ (retryGo f attempt fuel).2.1 := by
  intro fuel
  induction fuel using Nat.strong_induction_on with
  | _ fuel ih =>
    intro attempt
    cases hf : f attempt with
    | ok r =>
      rw [retryGo_ok_step f attempt fuel r hf]
    | error e =>
      by_cases hc : e = PyErr.rateLimitError ∧ 0 < fuel
      · obtain ⟨he, hfuel⟩ := hc
        subst he
        rw [retryGo_retry_step f attempt fuel hf hfuel]
        dsimp only
        have h2 : 0 < 2 ^ attempt := Nat.pos_pow_of_pos attempt (by decide)
        have h3 : 1 ≤ min (2 ^ attempt) fuel := le_min h2 hfuel
        have h5 := ih (fuel - min (2 ^ attempt) fuel) (by omega) (attempt + 1)
        omega
      · rw [retryGo_stop_step f attempt fuel e hf hc]

/-- When every attempt raises the rate-limit error, the loop ends by raising
that error. -/
theorem retryGo_always_err (f : Nat → Except PyErr α)
    (hf : ∀ t, f t = .error PyErr.rateLimitError) :
    ∀ fuel attempt, (retryGo f attempt fuel).1 = .error PyErr.rateLimitError := by
  intro fuel
  induction fuel using Nat.strong_induction_on with
  | _ fuel ih =>
    intro attempt
    by_cases hfuel : 0 < fuel
    · rw [retryGo_retry_step f attempt fuel (hf attempt) hfuel]
      have h2 : 0 < 2 ^ attempt := Nat.pos_pow_of_pos attempt (by decide)
      have h3 : 1 ≤ min (2 ^ attempt) fuel := le_min h2 hfuel
      exact ih (fuel - min (2 ^ attempt) fuel) (by omega) (attempt + 1)
    · rw [retryGo_stop_step f attempt fuel PyErr.rateLimitError (hf attempt)
        (fun hcc => hfuel hcc.2)]

/-- Success short-circuits the retry loop: a run of k rate-limited attempts
followed by a success returns that success after exactly k + 1 attempts,
having slept the exponential delays, provided they fit in the budget. -/
theorem retryGo_succ (f : Nat → Except PyErr α) (r : α) :
    ∀ (k attempt fuel : Nat),
    (∀ t, t < k → f (attempt + t) = .error PyErr.rateLimitError) →
    f (attempt + k) = .ok r →
    2 ^ (attempt + k) ≤ 2 ^ attempt + fuel →
    retryGo f attempt fuel =
      (.ok r, attempt + k + 1, 2 ^ (attempt + k) - 2 ^ attempt) := by
  intro k
  induction k with
  | zero =>
    intro attempt fuel _ hok _
    rw [Nat.add_zero] at hok
    rw [retryGo_ok_step f attempt fuel r hok]
    simp
  | succ k ih =>
    intro attempt fuel hfail hok hb
    have hf0 : f attempt = .error PyErr.rateLimitError := by
      have h0 := hfail 0 (Nat.succ_pos k)
      rwa [Nat.add_zero] at h0
    have hpowmono : 2 ^ (attempt + 1) ≤ 2 ^ (attempt + (k + 1)) :=
      Nat.pow_le_pow_right (by decide) (by omega)
    have hpow1 : 2 ^ (attempt + 1) = 2 ^ attempt + 2 ^ attempt := by
      rw [pow_succ, Nat.mul_two]
    have h2 : 0 < 2 ^ attempt := Nat.pos_pow_of_pos attempt (by decide)
    have hfuelpos : 0 < fuel := by omega
    have hwle : 2 ^ attempt ≤ fuel := by omega
    have hw : min (2 ^ attempt) fuel = 2 ^ attempt := min_eq_left hwle
    rw [retryGo_retry_step f attempt fuel hf0 hfuelpos, hw]
    have hidx : attempt + 1 + k = attempt + (k + 1) := by omega
    have ihres := ih (attempt + 1) (fuel - 2 ^ attempt)
      (fun t ht => by
        have h1 := hfail (t + 1) (by omega)
        rwa [show attempt + (t + 1) = attempt + 1 + t by omega] at h1)
      (by rwa [hidx])
      (by rw [hidx]; omega)
    rw [hidx] at ihres
    rw [ihres]
    dsimp only
    simp only [Prod.mk.injEq, true_and]
    omega

/-! Helper lemmas for basic_request. -/

/-- When both tiers miss and the network fails, basic_request propagates the
exception and leaves the instance and the caches untouched. -/
theorem basicRequest_err (net : String → Except PyErr Resp) (inst : InstState)
    (cs : CacheState) (prompt : String) (image : Option String) (kw : KV)
    (e : PyErr)
    (h1 : dictLookup (requestKey inst prompt image kw) cs.memo = none)
    (h2 : dictLookup (requestKey inst prompt image kw) cs.store = none)
    (h3 : net (requestKey inst prompt image kw) = .error e) :
    basicRequest net inst cs prompt image kw = (.error e, inst, cs) := by
  unfold basicRequest
  simp [chat_request, persistentTier, h1, h2, h3]

/-- When both tiers miss and the network answers, basic_request returns the
response, appends exactly one history record, and populates both tiers. -/
theorem basicRequest_ok (net : String → Except PyErr Resp) (inst : InstState)
    (cs : CacheState) (prompt : String) (image : Option String) (kw : KV)
    (resp : Resp)
    (h1 : dictLookup (requestKey inst prompt image kw) cs.memo = none)
    (h2 : dictLookup (requestKey inst prompt image kw) cs.store = none)
    (h3 : net (requestKey inst prompt image kw) = .ok resp) :
    basicRequest net inst cs prompt image kw =
      (.ok resp,
       { inst with history := inst.history ++
           [⟨prompt, image, resp, requestKey inst prompt image kw, kw⟩] },
       ⟨dictInsert cs.memo (requestKey inst prompt image kw) resp,
        dictInsert cs.store (requestKey inst prompt image kw) resp⟩) := by
  unfold basicRequest
  simp [chat_request, persistentTier, h1, h2, h3]

/-- Claim C3: when the remote call raises the rate-limit error on every
attempt (and the caches cannot answer), request raises the rate-limit error
to the caller, makes at least one attempt, and the total time slept across
all retry attempts is at most the 10-unit budget. -/
theorem claim_C3_retry_budget (net : Nat → String → Except PyErr Resp)
    (inst : InstState) (cs : CacheState) (prompt : String)
    (image : Option String) (kw : KV)
    (hnet : ∀ t s, net t s = .error PyErr.rateLimitError)
    (h1 : dictLookup (requestKey inst prompt image (delModelType kw)) cs.memo = none)
    (h2 : dictLookup (requestKey inst prompt image (delModelType kw)) cs.store = none) :
    (request net inst cs prompt image kw).1 = .error PyErr.rateLimitError ∧
    1 ≤ (request net inst cs prompt image kw).2.1 ∧
    (request net inst cs prompt image kw).2.2 ≤ 10 := by
  have hf : ∀ t, retryAttempt net inst cs prompt image (delModelType kw) t
      = .error PyErr.rateLimitError := by
    intro t
    unfold retryAttempt
    rw [basicRequest_err (net t) inst cs prompt image (delModelType kw)
      PyErr.rateLimitError h1 h2 (hnet t _)]
  unfold request
  exact ⟨retryGo_always_err _ hf 10 0, retryGo_attempts_ge _ 10 0,
    retryGo_waited_le _ 10 0⟩

/-- Witness for claim C3: a concrete always-rate-limited oracle on fresh
caches. -/
theorem claim_C3_retry_budget_witness :
    (request (fun _ _ => .error .rateLimitError) c3Inst ⟨[], []⟩ "p" none []).1
        = .error PyErr.rateLimitError ∧
    1 ≤ (request (fun _ _ => .error .rateLimitError) c3Inst ⟨[], []⟩ "p" none []).2.1 ∧
    (request (fun _ _ => .error .rateLimitError) c3Inst ⟨[], []⟩ "p" none []).2.2 ≤ 10 :=
  claim_C3_retry_budget _ c3Inst ⟨[], []⟩ "p" none [] (fun _ _ => rfl) rfl rfl

/-- Claim C4: the retry wrapper retries only on the rate-limit
classification.  First: any other error from the first attempt propagates
immediately, after exactly one attempt, with no sleeping, and the error
result carries no state, so nothing was cached.  Second: a success after k
rate-limited attempts (fitting the budget) short-circuits the loop: the
success value is returned after exactly k + 1 attempts. -/
theorem claim_C4_retry_classification :
    (∀ (net : Nat → String → Except PyErr Resp) (inst : InstState)
       (cs : CacheState) (prompt : String) (image : Option String) (kw : KV)
       (e : PyErr),
      e ≠ PyErr.rateLimitError →
      dictLookup (requestKey inst prompt image (delModelType kw)) cs.memo = none →
      dictLookup (requestKey inst prompt image (delModelType kw)) cs.store = none →
      net 0 (requestKey inst prompt image (delModelType kw)) = .error e →
      request net inst cs prompt image kw = (.error e, 1, 0)) ∧
    (∀ (net : Nat → String → Except PyErr Resp) (inst : InstState)
       (cs : CacheState) (prompt : String) (image : Option String) (kw : KV)
       (resp : Resp) (k : Nat),
      (∀ t, t < k → net t (requestKey inst prompt image (delModelType kw))
          = .error PyErr.rateLimitError) →
      net k (requestKey inst prompt image (delModelType kw)) = .ok resp →
      dictLookup (requestKey inst prompt image (delModelType kw)) cs.memo = none →
      dictLookup (requestKey inst prompt image (delModelType kw)) cs.store = none →
      2 ^ k ≤ 1 + 10 →
      request net inst cs prompt image kw =
        (.ok (resp,
          { inst with history := inst.history ++
              [⟨prompt, image, resp,
                requestKey inst prompt image (delModelType kw), delModelType kw⟩] },
          ⟨dictInsert cs.memo (requestKey inst prompt image (delModelType kw)) resp,
           dictInsert cs.store (requestKey inst prompt image (delModelType kw)) resp⟩),
         k + 1, 2 ^ k - 1)) := by
  constructor
  · intro net inst cs prompt image kw e he h1 h2 h3
    have hatt : retryAttempt net inst cs prompt image (delModelType kw) 0 = .error e := by
      unfold retryAttempt
      rw [basicRequest_err (net 0) inst cs prompt image (delModelType kw) e h1 h2 h3]
    unfold request
    rw [retryGo_stop_step _ 0 10 e hatt (fun hc => he hc.1)]
  · intro net inst cs prompt image kw resp k hfail hok h1 h2 hb
    have hfailA : ∀ t, t < k →
        retryAttempt net inst cs prompt image (delModelType kw) t
          = .error PyErr.rateLimitError := by
      intro t ht
      unfold retryAttempt
      rw [basicRequest_err (net t) inst cs prompt image (delModelType kw)
        PyErr.rateLimitError h1 h2 (hfail t ht)]
    have hokA : retryAttempt net inst cs prompt image (delModelType kw) k
        = .ok (resp,
          { inst with history := inst.history ++
              [⟨prompt, image, resp,
                requestKey inst prompt image (delModelType kw), delModelType kw⟩] },
          ⟨dictInsert cs.memo (requestKey inst prompt image (delModelType kw)) resp,
           dictInsert cs.store (requestKey inst prompt image (delModelType kw)) resp⟩) := by
      unfold retryAttempt
      rw [basicRequest_ok (net k) inst cs prompt image (delModelType kw) resp h1 h2 hok]
    unfold request
    have hres := retryGo_succ
      (retryAttempt net inst cs prompt image (delModelType kw)) _ k 0 10
      (fun t ht => by rw [Nat.zero_add]; exact hfailA t ht)
      (by rw [Nat.zero_add]; exact hokA)
      (by rw [Nat.zero_add, pow_zero]; exact hb)
    rw [hres]
    rw [Nat.zero_add, pow_zero]

/-- Witness for claim C4: a transport error propagates after one attempt; a
single rate-limited attempt followed by a success returns that success after
two attempts. -/
theorem claim_C4_retry_classification_witness :
    request (fun _ _ => .error .transportError) c4Inst ⟨[], []⟩ "p" none [] =
      (.error .transportError, 1, 0) ∧
    request (fun t _ => if t = 0 then .error .rateLimitError else .ok c4Resp)
        c4Inst ⟨[], []⟩ "p" none [] =
      (.ok (c4Resp,
        { c4Inst with history := c4Inst.history ++
            [⟨"p", none, c4Resp, requestKey c4Inst "p" none (delModelType []),
              delModelType []⟩] },
        ⟨[(requestKey c4Inst "p" none (delModelType []), c4Resp)],
         [(requestKey c4Inst "p" none (delModelType []), c4Resp)]⟩),
       2, 1) :=
  ⟨claim_C4_retry_classification.1 _ c4Inst ⟨[], []⟩ "p" none [] .transportError
     (by decide) rfl rfl rfl,
   by
     have h := claim_C4_retry_classification.2
       (fun t _ => if t = 0 then .error .rateLimitError else .ok c4Resp)
       c4Inst ⟨[], []⟩ "p" none [] c4Resp 1
       (fun t ht => by
         have ht0 : t = 0 := by omega
         subst ht0
         rfl)
       rfl rfl rfl (by decide)
     exact h⟩

/-- Claim C8: a basic_request call that completes without an exception
appends exactly one history record, capturing the prompt, the image
reference, the raw (pre-merge) kwargs, the serialized merged kwargs (the
stringify_request wrapper built on line 124) and the response, and changes
nothing else on the instance; a call that raises leaves the instance, and
hence its history, unchanged. -/
theorem claim_C8_history (net : String → Except PyErr Resp) (inst : InstState)
    (cs : CacheState) (prompt : String) (image : Option String) (kw : KV) :
    (∀ resp inst1 cs1,
      basicRequest net inst cs prompt image kw = (.ok resp, inst1, cs1) →
      inst1.history = inst.history ++
        [⟨prompt, image, resp, requestKey inst prompt image kw, kw⟩] ∧
      inst1.model_type = inst.model_type ∧
      inst1.system_prompt = inst.system_prompt ∧
      inst1.kwargs = inst.kwargs) ∧
    (∀ e inst1 cs1,
      basicRequest net inst cs prompt image kw = (.error e, inst1, cs1) →
      inst1 = inst) := by
  rcases hcr : chat_request net cs (requestKey inst prompt image kw) with ⟨r, cs2, n⟩
  cases r with
  | ok resp0 =>
    constructor
    · intro resp inst1 cs1 heq
      unfold basicRequest at heq
      rw [hcr] at heq
      dsimp only at heq
      injection heq with ha hb
      injection hb with hb1 hb2
      injection ha with ha1
      subst ha1
      subst hb1
      exact ⟨rfl, rfl, rfl, rfl⟩
    · intro e inst1 cs1 heq
      unfold basicRequest at heq
      rw [hcr] at heq
      dsimp only at heq
      injection heq with ha hb
      exact absurd ha (by simp)
  | error e0 =>
    constructor
    · intro resp inst1 cs1 heq
      unfold basicRequest at heq
      rw [hcr] at heq
      dsimp only at heq
      injection heq with ha hb
      exact absurd ha (by simp)
    · intro e inst1 cs1 heq
      unfold basicRequest at heq
      rw [hcr] at heq
      dsimp only at heq
      injection heq with ha hb
      injection hb with hb1 hb2
      exact hb1.symm

def c8Inst : InstState := mkInstState "m8" none none []

def c8Resp : Resp := ⟨[⟨"stop", some ⟨"hi"⟩, none, none⟩]⟩

/-- Witness for claim C8: a successful concrete call appends exactly its one
record; a failing concrete call leaves the instance unchanged. -/
theorem claim_C8_history_witness :
    (basicRequest (fun _ => .ok c8Resp) c8Inst ⟨[], []⟩ "p" (some "u") []).2.1.history
      = c8Inst.history ++
        [⟨"p", some "u", c8Resp, requestKey c8Inst "p" (some "u") [], []⟩] ∧
    (basicRequest (fun _ => .error .transportError) c8Inst ⟨[], []⟩ "p" (some "u") []).2.1
      = c8Inst := by
  constructor
  · have heq : basicRequest (fun _ => .ok c8Resp) c8Inst ⟨[], []⟩ "p" (some "u") [] =
        (.ok c8Resp,
         { c8Inst with history := c8Inst.history ++
             [⟨"p", some "u", c8Resp, requestKey c8Inst "p" (some "u") [], []⟩] },
         ⟨[(requestKey c8Inst "p" (some "u") [], c8Resp)],
          [(requestKey c8Inst "p" (some "u") [], c8Resp)]⟩) :=
      basicRequest_ok _ c8Inst ⟨[], []⟩ "p" (some "u") [] c8Resp rfl rfl rfl
    exact ((claim_C8_history (fun _ => .ok c8Resp) c8Inst ⟨[], []⟩ "p" (some "u") []).1
      c8Resp _ _ heq).1
  · have heq : basicRequest (fun _ => .error .transportError) c8Inst ⟨[], []⟩ "p"
        (some "u") [] = (.error .transportError, c8Inst, ⟨[], []⟩) :=
      basicRequest_err _ c8Inst ⟨[], []⟩ "p" (some "u") [] .transportError rfl rfl rfl
    exact (claim_C8_history (fun _ => .error .transportError) c8Inst ⟨[], []⟩ "p"
      (some "u") []).2 .transportError c8Inst ⟨[], []⟩ heq

/-- Extracting texts with the chat path succeeds on choices that carry a
message field and yields exactly the message contents. -/
theorem mapM_getChoiceText_chat (l : List Choice)
    (h : ∀ c ∈ l, c.message.isSome) :
    l.mapM (getChoiceText "chat") = .ok (l.map chatText) := by
  induction l with
  | nil => rfl
  | cons c rest ih =>
    have hc : c.message.isSome := h c (List.mem_cons_self c rest)
    obtain ⟨m, hm⟩ := Option.isSome_iff_exists.mp hc
    have hrest := ih (fun x hx => h x (List.mem_cons_of_mem c hx))
    have hgc : getChoiceText "chat" c = .ok m.content := by
      unfold getChoiceText
      rw [if_pos rfl, hm]
    have hct : chatText c = m.content := by
      unfold chatText
      rw [hm]
    rw [List.mapM_cons, hgc, hrest, List.map_cons, hct]
    rfl

/-- Every kept choice is one of the original choices. -/
theorem mem_keptChoices (oc : Bool) (l : List Choice) (c : Choice)
    (h : c ∈ keptChoices oc l) : c ∈ l := by
  unfold keptChoices at h
  dsimp only at h
  split at h
  · exact List.mem_of_mem_filter h
  · exact h

/-- With at least one non-truncated choice, the filter is kept. -/
theorem keptChoices_true_of_ne (l : List Choice)
    (h : l.filter (fun c => c.finish_reason != "length") ≠ []) :
    keptChoices true l = l.filter (fun c => c.finish_reason != "length") := by
  unfold keptChoices
  simp [List.isEmpty_iff, h]

/-- With every choice truncated, all choices are kept. -/
theorem keptChoices_true_of_eq (l : List Choice)
    (h : l.filter (fun c => c.finish_reason != "length") = []) :
    keptChoices true l = l := by
  unfold keptChoices
  simp [List.isEmpty_iff, h]

/-- A successful request whose normalization succeeds shapes the call result. -/
theorem callModel_ok_shape (net : Nat → String → Except PyErr Resp)
    (inst : InstState) (cs : CacheState) (prompt : String)
    (image : Option String) (kw : KV) (resp : Resp) (iA : InstState)
    (cA : CacheState) (ts : List String)
    (hr : (request net inst cs prompt image kw).1 = .ok (resp, iA, cA))
    (hn : normalizeResp inst.model_type resp kw true false = .ok ts) :
    callModel net inst cs prompt image true false kw = (.ok ts, iA, cA) := by
  unfold callModel
  rw [hr]
  dsimp only
  rw [hn]
  rfl

/-- Claim C5: a call with only_completed true (and sorting off) drops the
length-truncated choices whenever at least one non-truncated choice exists,
and keeps all choices when every choice is length-truncated, returning the
texts of the kept choices in order. -/
theorem claim_C5_filtering (inst : InstState) (cs : CacheState) (prompt : String)
    (image : Option String) (kw : KV) (resp : Resp)
    (hmt : inst.model_type = "chat")
    (hmsg : ∀ c ∈ resp.choices, c.message.isSome)
    (h1 : dictLookup (requestKey inst prompt image (delModelType kw)) cs.memo = none)
    (h2 : dictLookup (requestKey inst prompt image (delModelType kw)) cs.store = none) :
    (resp.choices.filter (fun c => c.finish_reason != "length") ≠ [] →
      (callModel (fun _ _ => .ok resp) inst cs prompt image true false kw).1 =
        .ok ((resp.choices.filter (fun c => c.finish_reason != "length")).map chatText)) ∧
    (resp.choices.filter (fun c => c.finish_reason != "length") = [] →
      (callModel (fun _ _ => .ok resp) inst cs prompt image true false kw).1 =
        .ok (resp.choices.map chatText)) := by
  have hatt : retryAttempt (fun _ _ => .ok resp) inst cs prompt image
      (delModelType kw) 0 =
      .ok (resp,
        { inst with history := inst.history ++
            [⟨prompt, image, resp, requestKey inst prompt image (delModelType kw),
              delModelType kw⟩] },
        ⟨dictInsert cs.memo (requestKey inst prompt image (delModelType kw)) resp,
         dictInsert cs.store (requestKey inst prompt image (delModelType kw)) resp⟩) := by
    unfold retryAttempt
    rw [basicRequest_ok _ inst cs prompt image (delModelType kw) resp h1 h2 rfl]
  have hloop := retryGo_ok_step
    (retryAttempt (fun _ _ => .ok resp) inst cs prompt image (delModelType kw)) 0 10 _ hatt
  have hreq1 : (request (fun _ _ => .ok resp) inst cs prompt image kw).1 =
      .ok (resp,
        { inst with history := inst.history ++
            [⟨prompt, image, resp, requestKey inst prompt image (delModelType kw),
              delModelType kw⟩] },
        ⟨dictInsert cs.memo (requestKey inst prompt image (delModelType kw)) resp,
         dictInsert cs.store (requestKey inst prompt image (delModelType kw)) resp⟩) := by
    unfold request
    rw [hloop]
  have hmapM := mapM_getChoiceText_chat (keptChoices true resp.choices)
    (fun c hcm => hmsg c (mem_keptChoices true resp.choices c hcm))
  have hnorm : normalizeResp inst.model_type resp kw true false =
      .ok ((keptChoices true resp.choices).map chatText) := by
    rw [hmt]
    unfold normalizeResp
    rw [hmapM]
    rfl
  have hcm := callModel_ok_shape _ inst cs prompt image kw resp _ _ _ hreq1 hnorm
  constructor
  · intro hne
    rw [hcm]
    dsimp only
    rw [keptChoices_true_of_ne resp.choices hne]
  · intro heq0
    rw [hcm]
    dsimp only
    rw [keptChoices_true_of_eq resp.choices heq0]

/-- Witness for claim C5: finish indicators [length, stop, stop] yield
exactly the two stop texts; [length, length] falls back to both texts. -/
theorem claim_C5_filtering_witness :
    (callModel (fun _ _ => .ok c5RespA) c5Inst ⟨[], []⟩ "p" none true false []).1 =
      .ok ["B", "C"] ∧
    (callModel (fun _ _ => .ok c5RespB) c5Inst ⟨[], []⟩ "p" none true false []).1 =
      .ok ["A", "B"] := by
  constructor
  · have h := (claim_C5_filtering c5Inst ⟨[], []⟩ "p" none [] c5RespA rfl
      (by decide) rfl rfl).1 (by decide)
    rw [h]
    rfl
  · have h := (claim_C5_filtering c5Inst ⟨[], []⟩ "p" none [] c5RespB rfl
      (by decide) rfl rfl).2 (by decide)
    rw [h]
    rfl

/-- Scoring success forces the text extractions to succeed with exactly the
scored texts. -/
theorem scoreChoices_text (mt : String) :
    ∀ (l : List Choice) (sc : List (ℚ × String)),
    scoreChoices mt l = .ok sc →
    l.mapM (getChoiceText mt) = .ok (sc.map Prod.snd) := by
  intro l
  induction l with
  | nil =>
    intro sc h
    unfold scoreChoices at h
    injection h with h1
    subst h1
    rfl
  | cons c rest ih =>
    intro sc h
    cases h1 : choiceScore c with
    | error e =>
      simp only [scoreChoices, h1] at h
      exact Except.noConfusion h
    | ok s =>
      cases h2 : getChoiceText mt c with
      | error e =>
        simp only [scoreChoices, h1, h2] at h
        exact Except.noConfusion h
      | ok t =>
        cases h3 : scoreChoices mt rest with
        | error e =>
          simp only [scoreChoices, h1, h2, h3] at h
          exact Except.noConfusion h
        | ok r =>
          simp only [scoreChoices, h1, h2, h3] at h
          injection h with h4
          subst h4
          rw [List.mapM_cons, h2, ih r h3]
          rfl

/-- Counterexample to claim C6 as stated: at the very sorting example of the
spec (two choices with mean log-probabilities -1 and -1/10, return_sorted
true, n = 2), the call raises AssertionError at the interface guard, so it
does not return the descending-score texts. -/
theorem claim_C6_counterexample :
    (callModel (fun _ _ => .ok c6Resp) c6Inst ⟨[], []⟩ "p" none true true c6Kw).1 =
      .error PyErr.assertionError ∧
    (.error PyErr.assertionError : Except PyErr (List String)) ≠ .ok ["b", "a"] :=
  ⟨rfl, fun h => Except.noConfusion h⟩

/-- Claim C6 (amended): the sorting logic itself, modelled without the
interface guard that makes it unreachable, scores each kept choice by the
arithmetic mean of its (endoftext-truncated) token log-probabilities and
outputs the texts of the stable descending sort of the (score, text) pairs:
the output is a permutation of the scored pairs ordered by non-increasing
score. -/
theorem claim_C6_sorted_amended (mt : String) (resp : Resp) (kw : KV)
    (oc : Bool) (scored : List (ℚ × String))
    (hn : 1 < getN kw)
    (hs : scoreChoices mt (keptChoices oc resp.choices) = .ok scored) :
    normalizeResp mt resp kw oc true =
      .ok ((List.insertionSort pyGe scored).map Prod.snd) ∧
    List.Pairwise (fun a b : ℚ => b ≤ a)
      ((List.insertionSort pyGe scored).map Prod.fst) ∧
    (List.insertionSort pyGe scored).Perm scored := by
  have hmapM := scoreChoices_text mt (keptChoices oc resp.choices) scored hs
  have hd : decide (1 < getN kw) = true := decide_eq_true hn
  refine ⟨?_, ?_, List.perm_insertionSort pyGe scored⟩
  · unfold normalizeResp
    rw [hmapM]
    dsimp only
    rw [hd, hs]
    rfl
  · have hsorted := List.sorted_insertionSort pyGe scored
    rw [List.pairwise_map]
    exact hsorted.imp (fun hab => by
      rcases hab with h | ⟨h, _⟩
      · exact le_of_lt h
      · exact le_of_eq h)

/-- Witness for the amended claim C6 at the sorting example of the spec: the
mean -1/10 text precedes the mean -1 text. -/
theorem claim_C6_sorted_amended_witness :
    (1 : ℚ) < getN c6Kw ∧
    scoreChoices "chat" (keptChoices true c6Resp.choices) = .ok c6Scored ∧
    normalizeResp "chat" c6Resp c6Kw true true = .ok ["b", "a"] ∧
    List.Pairwise (fun a b : ℚ => b ≤ a)
      ((List.insertionSort pyGe c6Scored).map Prod.fst) := by
  have h := claim_C6_sorted_amended "chat" c6Resp c6Kw true c6Scored
    (by with_unfolding_all decide) (by with_unfolding_all rfl)
  refine ⟨by with_unfolding_all decide, by with_unfolding_all rfl,
    h.1.trans ?_, h.2.1⟩
  with_unfolding_all rfl

/-- Counterexample to claim C7 as stated: with sorting requested and n = 2,
the call fails with AssertionError at the interface guard, both for a choice
with absent log-probabilities and for one with an empty log-probability
sequence; the failure is not an InvalidState inspection of the
log-probabilities, which are never reached. -/
theorem claim_C7_counterexample :
    (callModel (fun _ _ => .ok c7RespNone) c7Inst ⟨[], []⟩ "p" none true true c7Kw).1 =
      .error PyErr.assertionError ∧
    (callModel (fun _ _ => .ok c7RespEmpty) c7Inst ⟨[], []⟩ "p" none true true c7Kw).1 =
      .error PyErr.assertionError ∧
    PyErr.assertionError ≠ PyErr.typeError ∧
    PyErr.assertionError ≠ PyErr.zeroDivisionError :=
  ⟨rfl, rfl, by decide, by decide⟩

/-- Claim C7 (amended): in the sorting logic itself, modelled without the
interface guard that makes it unreachable, a choice with absent
log-probabilities fails with TypeError (subscripting None) before any
division, and a choice with an empty log-probability sequence fails with
ZeroDivisionError at the mean computation; an exception is raised in both
cases and no NaN value is ever produced. -/
theorem claim_C7_sort_errors_amended :
    normalizeResp "chat" c7RespNone c7Kw true true = .error PyErr.typeError ∧
    normalizeResp "chat" c7RespEmpty c7Kw true true = .error PyErr.zeroDivisionError :=
  ⟨rfl, rfl⟩

/-! Helper lemmas for the cache-key analysis of the kwargs merge. -/

theorem dictLookup_eq_none_of_not_mem {d : List (String × α)} {k : String}
    (h : k ∉ d.map Prod.fst) : dictLookup k d = none := by
  induction d with
  | nil => rfl
  | cons p rest ih =>
    rw [List.map_cons] at h
    have h1 : p.1 ≠ k := fun he => h (he ▸ List.mem_cons_self p.1 _)
    have h2 : k ∉ rest.map Prod.fst := fun hm => h (List.mem_cons_of_mem _ hm)
    simp [dictLookup, h1, ih h2]

theorem map_subst_not_mem {d : List (String × α)} {k : String} (v : α)
    (h : k ∉ d.map Prod.fst) :
    d.map (fun p => if p.1 = k then (k, v) else p) = d := by
  induction d with
  | nil => rfl
  | cons p rest ih =>
    rw [List.map_cons] at h
    have h1 : p.1 ≠ k := fun he => h (he ▸ List.mem_cons_self p.1 _)
    have h2 : k ∉ rest.map Prod.fst := fun hm => h (List.mem_cons_of_mem _ hm)
    simp [h1, ih h2]

/-- Assigning an already-present key into a duplicate-free dict replaces that
binding in place. -/
theorem dictInsert_eq_map (d : List (String × α)) (k : String) (v : α)
    (hnd : (d.map Prod.fst).Nodup) (hmem : k ∈ d.map Prod.fst) :
    dictInsert d k v = d.map (fun p => if p.1 = k then (k, v) else p) := by
  induction d with
  | nil => cases hmem
  | cons p rest ih =>
    rw [List.map_cons] at hnd hmem
    obtain ⟨hp, hrest⟩ := List.nodup_cons.mp hnd
    by_cases h : p.1 = k
    · have hnotin : k ∉ rest.map Prod.fst := h ▸ hp
      simp [dictInsert, h, map_subst_not_mem v hnotin]
    · have hmem2 : k ∈ rest.map Prod.fst := by
        rcases List.mem_cons.mp hmem with he | hm
        · exact absurd he.symm h
        · exact hm
      simp [dictInsert, h, ih hrest hmem2]

/-- The replacement map leaves the key sequence unchanged. -/
theorem keys_map_subst (d : List (String × α)) (k : String) (v : α) :
    (d.map (fun p => if p.1 = k then (k, v) else p)).map Prod.fst
      = d.map Prod.fst := by
  rw [List.map_map]
  apply List.map_congr_left
  intro p _
  by_cases h : p.1 = k
  · simp [Function.comp, h]
  · simp [Function.comp, h]

/-- Merging call kwargs whose keys all occur among the defaults of a
duplicate-free dict only replaces values in place: the result is the default
dict with each binding overridden by the (unique) call-kwargs binding for its
key, so the insertion order of the call kwargs is immaterial. -/
theorem dictMerge_eq_map (c : List (String × α)) :
    ∀ (d : List (String × α)),
    (d.map Prod.fst).Nodup →
    (∀ p ∈ c, p.1 ∈ d.map Prod.fst) →
    (c.map Prod.fst).Nodup →
    dictMerge d c = d.map (fun p =>
      match dictLookup p.1 c with
      | some v => (p.1, v)
      | none => p) := by
  induction c with
  | nil =>
    intro d _ _ _
    exact (List.map_id' d).symm
  | cons kv rest ih =>
    obtain ⟨k, v⟩ := kv
    intro d hnd hsub hcnd
    have hstep : dictMerge d ((k, v) :: rest) = dictMerge (dictInsert d k v) rest := rfl
    rw [hstep]
    have hkmem : k ∈ d.map Prod.fst := hsub (k, v) (List.mem_cons_self _ _)
    rw [dictInsert_eq_map d k v hnd hkmem]
    have hkeys := keys_map_subst d k v
    have hnd2 : ((d.map (fun p => if p.1 = k then (k, v) else p)).map Prod.fst).Nodup := by
      rw [hkeys]; exact hnd
    have hsub2 : ∀ p ∈ rest,
        p.1 ∈ (d.map (fun p => if p.1 = k then (k, v) else p)).map Prod.fst := by
      intro p hp
      rw [hkeys]
      exact hsub p (List.mem_cons_of_mem _ hp)
    rw [List.map_cons] at hcnd
    obtain ⟨hknotin, hcnd2⟩ := List.nodup_cons.mp hcnd
    rw [ih (d.map (fun p => if p.1 = k then (k, v) else p)) hnd2 hsub2 hcnd2]
    rw [List.map_map]
    apply List.map_congr_left
    intro p _
    by_cases h : p.1 = k
    · have hlr : dictLookup k rest = none := dictLookup_eq_none_of_not_mem hknotin
      simp [Function.comp, h, dictLookup, hlr]
    · have h2 : k ≠ p.1 := fun he => h he.symm
      simp [Function.comp, h, dictLookup, h2]

/-- Looking up a key is invariant under permutation of a duplicate-free
dict. -/
theorem dictLookup_perm {c1 c2 : List (String × α)} (h : c1.Perm c2) :
    (c1.map Prod.fst).Nodup → ∀ k, dictLookup k c1 = dictLookup k c2 := by
  induction h with
  | nil =>
    intro _ k
    rfl
  | cons x h ih =>
    intro hnd k
    rw [List.map_cons] at hnd
    have hnd2 := (List.nodup_cons.mp hnd).2
    by_cases hx : x.1 = k
    · simp [dictLookup, hx]
    · simp [dictLookup, hx, ih hnd2 k]
  | swap x y l =>
    intro hnd k
    rw [List.map_cons, List.map_cons] at hnd
    obtain ⟨hy, hnd1⟩ := List.nodup_cons.mp hnd
    have hyx : y.1 ≠ x.1 := fun he => hy (he ▸ List.mem_cons_self x.1 _)
    by_cases h1 : y.1 = k <;> by_cases h2 : x.1 = k
    · exact absurd (h1.trans h2.symm) hyx
    · simp [dictLookup, h1, h2]
    · simp [dictLookup, h1, h2]
    · simp [dictLookup, h1, h2]
  | trans h1 h2 ih1 ih2 =>
    intro hnd k
    have hnd2 := ((h1.map Prod.fst).nodup_iff).mp hnd
    exact (ih1 hnd k).trans (ih2 hnd2 k)

/-- Counterexample to claim C1 as stated: two calls on the same instance
passing the same two novel options in the two possible orders produce merged
kwargs dicts that are permutations of each other (identical semantic
content), yet the serialized cache keys differ, because json.dumps renders
the dict in insertion order and the novel keys keep their call-site order. -/
theorem claim_C1_counterexample :
    (dictMerge c1Inst.kwargs [("alpha", Prim.q 1), ("beta", Prim.q 2)]).Perm
      (dictMerge c1Inst.kwargs [("beta", Prim.q 2), ("alpha", Prim.q 1)]) ∧
    requestKey c1Inst "p" none [("alpha", Prim.q 1), ("beta", Prim.q 2)] ≠
      requestKey c1Inst "p" none [("beta", Prim.q 2), ("alpha", Prim.q 1)] := by
  constructor
  · with_unfolding_all decide
  · with_unfolding_all decide

/-- Claim C1 (amended): the cache key is deterministic in the merged kwargs
dict; for call kwargs whose keys all occur among the instance defaults (the
standard sampling options), the merge canonicalizes the order to the order of
the defaults, so two semantically identical calls get the same key whatever
the order of their options; only novel option keys (see the counterexample)
leak their insertion order into the key. -/
theorem claim_C1_key_order (inst : InstState) (prompt : String)
    (image : Option String) (c1 c2 : KV)
    (hd : (inst.kwargs.map Prod.fst).Nodup)
    (hsub : ∀ p ∈ c1, p.1 ∈ inst.kwargs.map Prod.fst)
    (hnd : (c1.map Prod.fst).Nodup)
    (hperm : c1.Perm c2) :
    requestKey inst prompt image c1 = requestKey inst prompt image c2 := by
  have hnd2 : (c2.map Prod.fst).Nodup := ((hperm.map Prod.fst).nodup_iff).mp hnd
  have hsub2 : ∀ p ∈ c2, p.1 ∈ inst.kwargs.map Prod.fst :=
    fun p hp => hsub p (hperm.mem_iff.mpr hp)
  have hlookup := dictLookup_perm hperm hnd
  have hmerge : dictMerge inst.kwargs c1 = dictMerge inst.kwargs c2 := by
    rw [dictMerge_eq_map c1 inst.kwargs hd hsub hnd,
      dictMerge_eq_map c2 inst.kwargs hd hsub2 hnd2]
    exact List.map_congr_left (fun p _ => by rw [hlookup p.1])
  unfold requestKey
  rw [hmerge]

/-- Witness for the amended claim C1: the standard options n and temperature
given in either order produce the same cache key. -/
theorem claim_C1_key_order_witness :
    (([("n", Prim.q 2), ("temperature", Prim.q 1)] : KV).Perm
      [("temperature", Prim.q 1), ("n", Prim.q 2)]) ∧
    requestKey c1wInst "p" none [("n", Prim.q 2), ("temperature", Prim.q 1)] =
      requestKey c1wInst "p" none [("temperature", Prim.q 1), ("n", Prim.q 2)] :=
  ⟨by with_unfolding_all decide,
   claim_C1_key_order c1wInst "p" none _ _ (by with_unfolding_all decide)
     (by with_unfolding_all decide) (by with_unfolding_all decide)
     (by with_unfolding_all decide)⟩
